import Mathlib

/-!
Verification development for the `bb::core` asynchronous logger
(header `Logger.hpp`, namespace `bb::core`).

Shallow embedding conventions:
* `std::string_view` colour constants become `String` constants.
* `std::source_location` becomes the `SourceLocation` structure
  (file name, line, function name).
* `std::vformat` with `{}`-placeholders over already-stringified
  arguments becomes `vformat : String → List String → Except FormatError
  String`; a throw of `std::format_error` is the `.error` result.
  Indexed (`{0}`) and spec (`{:x}`) placeholders are outside the model and
  also map to `.error`.
* The mutable fields of the `Logger` singleton become the `LoggerState`
  structure; the pending queue `_logQ` is a FIFO list (head = front).
* `Log`, `LogToFile` and `format` are declared `noexcept` in the source,
  so an exception escaping `std::vformat` calls `std::terminate`; the
  embedding returns `LogOutcome.terminated` in that case and
  `LogOutcome.normal st` otherwise.
* The inner drain loop of the worker thread and the residual
  drain of the destructor are modelled as functions from the queued records to the
  console/file output lists, keeping the order in which records are
  popped.  Writes to the console append to `consoleOut`; writes to the
  file append to `fileContents`.
* Opening the log file is an interaction with the file system; its
  success is an explicit boolean parameter `openSucceeds` of
  `EnableFileLogging`.  Opening an already-open `std::fstream` fails but
  leaves `is_open()` true, which the model reflects.
* The wall clock (`std::chrono::system_clock::now` rendered by
  `std::ctime`) is an explicit `now : String` parameter.
-/

def COLOR_GREY : String := "\x1b[90m"

def COLOR_BLUE : String := "\x1b[34m"

def COLOR_GREEN : String := "\x1b[32m"

def COLOR_YELLOW : String := "\x1b[33m"

def COLOR_RED : String := "\x1b[31m"

def COLOR_FATAL : String := "\x1b[41;97m"

def COLOR_RESET : String := "\x1b[0m"

inductive LogLevel where
  | Trace
  | Debug
  | Info
  | Warn
  | Error
  | Fatal
  | Off
deriving DecidableEq, Repr

/-- The underlying integral value of the `LogLevel` enumerator
(`Trace = 0`, ..., `Off = 6`); `level < _level` in the source compares
these values. -/
def LogLevel.toNat : LogLevel → Nat
  | .Trace => 0
  | .Debug => 1
  | .Info => 2
  | .Warn => 3
  | .Error => 4
  | .Fatal => 5
  | .Off => 6

/-- `a < b` on `LogLevel`, as the C++ `<` on the underlying values of the enum. -/
def levelLt (a b : LogLevel) : Bool := a.toNat < b.toNat

structure SourceLocation where
  fileName : String
  line : Nat
  functionName : String
deriving DecidableEq, Repr

/-- `struct LogMessage` of the source.  The C++ field `where` is a Lean
keyword, rendered `whereLoc`. -/
structure LogMessage where
  level : LogLevel
  whereLoc : SourceLocation
  message : String
  toFile : Bool
deriving DecidableEq, Repr

def braceOpen : Char := Char.ofNat 123

def braceClose : Char := Char.ofNat 125

inductive FormatError where
  | badFormat
deriving DecidableEq, Repr

/-- Core of the `std::vformat` model on character lists: consume the
format string, substituting each `\x7b\x7d` placeholder by the next
argument.  `none` models a thrown `std::format_error`: an unmatched or
unsupported brace, or a placeholder with no argument left.  Unused
trailing arguments are allowed, as in `std::format`. -/
def vformatCore : List Char → List String → Option (List Char)
  | [], _ => some []
  | c :: rest, args =>
    if c = braceOpen then
      match rest with
      | [] => none
      | d :: rest2 =>
        if d = braceOpen then
          (vformatCore rest2 args).map (fun t => braceOpen :: t)
        else if d = braceClose then
          match args with
          | [] => none
          | a :: as => (vformatCore rest2 as).map (fun t => a.toList ++ t)
        else none
    else if c = braceClose then
      match rest with
      | [] => none
      | d :: rest2 =>
        if d = braceClose then (vformatCore rest2 args).map (fun t => braceClose :: t)
        else none
    else (vformatCore rest args).map (fun t => c :: t)

/-- Model of `std::vformat(fmt, std::make_format_args(args...))` with the
arguments already rendered to strings. -/
def vformat (fmt : String) (args : List String) : Except FormatError String :=
  match vformatCore fmt.toList args with
  | some l => .ok (String.mk l)
  | none => .error .badFormat

def srcMarker : List Char := "src/".toList

def slashChar : Char := '/'

/-- `std::strstr(full, "src/")` followed by taking the suffix from the
match: returns the suffix of the haystack starting at the FIRST
occurrence of `pat`, or `none` when `pat` does not occur. -/
def findSub (pat : List Char) : List Char → Option (List Char)
  | [] => if pat.isPrefixOf ([] : List Char) then some [] else none
  | c :: rest => if pat.isPrefixOf (c :: rest) then some (c :: rest) else findSub pat rest

/-- `std::strrchr(full, c)` followed by `+ 1`: the suffix strictly after
the LAST occurrence of `c`, or `none` when `c` does not occur. -/
def strrchrSuffix (c : Char) : List Char → Option (List Char)
  | [] => none
  | a :: rest =>
    match strrchrSuffix c rest with
    | some t => some t
    | none => if a = c then some rest else none

/-- The call-site file shortening of `Logger::format` (lines 175-180):
`p = strstr(full, "src/")`; if absent, `p = strrchr(full, '/') + 1` when a
slash exists, else the full path. -/
def shortFile (full : String) : String :=
  match findSub srcMarker full.toList with
  | some p => String.mk p
  | none =>
    match strrchrSuffix slashChar full.toList with
    | some t => String.mk t
    | none => full

/-- `std::erase(nowTimeStr, givenChar)`: remove every occurrence. -/
def eraseChar (c : Char) (s : String) : String :=
  String.mk (s.toList.filter (fun a => a ≠ c))

namespace Logger

/-- `Logger::toString`. -/
def toString : LogLevel → String
  | .Trace => "TRACE"
  | .Debug => "DEBUG"
  | .Info => "INFO"
  | .Warn => "WARN"
  | .Error => "ERROR"
  | .Fatal => "FATAL"
  | .Off => ""

/-- `Logger::LevelColour`; the `default` arm of the C++ switch (reached
for `Off`) yields the reset sequence. -/
def LevelColour : LogLevel → String
  | .Trace => COLOR_GREY
  | .Debug => COLOR_BLUE
  | .Info => COLOR_GREEN
  | .Warn => COLOR_YELLOW
  | .Error => COLOR_RED
  | .Fatal => COLOR_FATAL
  | .Off => COLOR_RESET

/-- `Logger::format`.  `now` is the `std::ctime` rendering of the current
time (used only on the file branch).  A `std::format_error` escaping
`std::vformat` is the `.error` result; since `format` is `noexcept`, the
callers turn it into process termination. -/
def format (now : String) (level : LogLevel) (whereLoc : SourceLocation)
    (fmt : String) (logToFile : Bool) (args : List String) :
    Except FormatError String :=
  match vformat fmt args with
  | .error e => .error e
  | .ok payload =>
    let color := LevelColour level
    let reset := COLOR_RESET
    let lvlStr := toString level
    let p := shortFile whereLoc.fileName
    if logToFile then
      let nowTimeStr := eraseChar '\n' now
      .ok ("[" ++ nowTimeStr ++ "] - [" ++ lvlStr ++ "] " ++ p ++ ":" ++
        Nat.repr whereLoc.line ++ " in function \x27" ++ whereLoc.functionName ++
        "\x27: " ++ payload ++ "\n")
    else
      .ok (color ++ "[" ++ lvlStr ++ "] " ++ p ++ ":" ++
        Nat.repr whereLoc.line ++ " in function " ++ reset ++ "\x27" ++
        whereLoc.functionName ++ "\x27" ++ color ++ ": " ++ payload ++ reset ++ "\n")

end Logger

/-- The mutable fields of the `Logger` singleton, plus the observable
output of both sinks (`fileContents`: lines appended to `_logFile`;
`consoleOut`: strings printed to the terminal). -/
structure LoggerState where
  logFileOpen : Bool
  fileContents : List String
  logToFile : Bool
  logPath : String
  level : LogLevel
  logQ : List LogMessage
  running : Bool
  consoleOut : List String
deriving DecidableEq, Repr

/-- The state right after the constructor ran: member initialisers of the
source (`_logToFile = false`, `_logPath = "./log.txt"`,
`_level = Trace`, `_running = true`, empty queue, no file open). -/
def initState : LoggerState :=
  { logFileOpen := false
    fileContents := []
    logToFile := false
    logPath := "./log.txt"
    level := .Trace
    logQ := []
    running := true
    consoleOut := [] }

/-- Outcome of a `noexcept` logging call: `normal` with the new state, or
`terminated` when an exception (a `std::format_error`) hit the `noexcept`
boundary and `std::terminate` took the process down. -/
inductive LogOutcome where
  | normal (st : LoggerState)
  | terminated
deriving DecidableEq, Repr

/-- Sequencing of calls that can terminate the process. -/
def LogOutcome.andThen (o : LogOutcome) (f : LoggerState → LogOutcome) : LogOutcome :=
  match o with
  | .normal st => f st
  | .terminated => .terminated

namespace Logger

/-- `Logger::SetLevel`. -/
def SetLevel (lvl : LogLevel) (st : LoggerState) : LoggerState :=
  { st with level := lvl }

/-- `Logger::SetLogfilePath`. -/
def SetLogfilePath (path : String) (st : LoggerState) : LoggerState :=
  { st with logPath := path }

/-- `Logger::pushToQ`: push at the back of the FIFO queue and notify the
worker (the notification itself has no state content). -/
def pushToQ (msg : LogMessage) (st : LoggerState) : LoggerState :=
  { st with logQ := st.logQ ++ [msg] }

/-- `Logger::Log` (console entry point, `noexcept`).  Filters on
`level < _level` BEFORE any formatting; otherwise renders the console
form and enqueues one record with `toFile = false`. -/
def Log (now : String) (level : LogLevel) (whereLoc : SourceLocation)
    (fmt : String) (args : List String) (st : LoggerState) : LogOutcome :=
  if levelLt level st.level then .normal st
  else
    match format now level whereLoc fmt false args with
    | .error _ => .terminated
    | .ok out =>
      .normal (pushToQ { level := level, whereLoc := whereLoc, message := out, toFile := false } st)

/-- The `std::source_location::current()` taken inside `LogToFile` for
the misuse warning (source line 83).  The on-disk path of the header is not
recorded in the sources; the README places it at `src/Logger.hpp`. -/
def misuseLoc : SourceLocation :=
  { fileName := "src/Logger.hpp", line := 83, functionName := "LogToFile" }

def misuseText : String := "cannot log to file if it was not previously enabled"

/-- `Logger::LogToFile` (`noexcept`).  When file logging is not enabled it
delegates to `Log` at `Warn` with a fixed message and drops the request;
otherwise it renders the file form and enqueues one record with
`toFile = true`, with NO `minimumLevel` check. -/
def LogToFile (now : String) (level : LogLevel) (whereLoc : SourceLocation)
    (fmt : String) (args : List String) (st : LoggerState) : LogOutcome :=
  if st.logToFile = false then
    Log now .Warn misuseLoc misuseText [] st
  else
    match format now level whereLoc fmt true args with
    | .error _ => .terminated
    | .ok out =>
      .normal (pushToQ { level := level, whereLoc := whereLoc, message := out, toFile := true } st)

/-- The `std::source_location::current()` taken inside
`EnableFileLogging` for the open-failure report (source line 67). -/
def enableLoc : SourceLocation :=
  { fileName := "src/Logger.hpp", line := 67, functionName := "EnableFileLogging" }

def openFailText : String := "Failed to open file"

/-- `Logger::EnableFileLogging`.  `openSucceeds` is the answer of the file system to `_logFile.open(_logPath, out | app)`; an already-open stream
fails to re-open but keeps `is_open()` true.  On open failure the source
calls `Log(LogLevel::Error, ..., "Failed to open file")` and clears
`_logToFile`; the fixed literal has no placeholders, so that call cannot
reach the terminate branch (the `.terminated` match arm is dead). -/
def EnableFileLogging (openSucceeds : Bool) (enable : Bool) (st : LoggerState) : LoggerState :=
  if enable then
    let opened := st.logFileOpen || openSucceeds
    if opened = false then
      let st1 :=
        match Log "" .Error enableLoc openFailText [] st with
        | .normal s => s
        | .terminated => st
      { st1 with logToFile := false }
    else
      { st with logFileOpen := true, logToFile := true }
  else
    { st with logFileOpen := false, logToFile := false }

/-- One iteration of the inner worker drain loop (source lines
127-137): pop a record, write it to the file when
`msg.toFile && _logToFile && _logFile.is_open()`, and ALWAYS
`std::print` it to the console. -/
def workerStep (msg : LogMessage) (st : LoggerState) : LoggerState :=
  let st1 :=
    if msg.toFile && st.logToFile && st.logFileOpen then
      { st with fileContents := st.fileContents ++ [msg.message] }
    else st
  { st1 with consoleOut := st1.consoleOut ++ [msg.message] }

/-- The inner worker loop over the queued records, front first. -/
def workerRun : List LogMessage → LoggerState → LoggerState
  | [], st => st
  | m :: rest, st => workerRun rest (workerStep m st)

/-- One wake-up of the worker thread: drain the whole queue in FIFO
order. -/
def workerDrain (st : LoggerState) : LoggerState :=
  workerRun st.logQ { st with logQ := [] }

/-- One iteration of the residual destructor drain (source lines
150-157): file when `msg.toFile && _logToFile && _logFile.is_open()`,
ELSE console (exclusive, unlike the worker). -/
def drainStep (msg : LogMessage) (st : LoggerState) : LoggerState :=
  if msg.toFile && st.logToFile && st.logFileOpen then
    { st with fileContents := st.fileContents ++ [msg.message] }
  else
    { st with consoleOut := st.consoleOut ++ [msg.message] }

def drainAll : List LogMessage → LoggerState → LoggerState
  | [], st => st
  | m :: rest, st => drainAll rest (drainStep m st)

/-- `Logger::~Logger`: clear `_running`, wake and join the worker, then
synchronously drain every residual queued record, then close the file
handle. -/
def destructor (st : LoggerState) : LoggerState :=
  let st1 := { st with running := false }
  let st2 := drainAll st1.logQ { st1 with logQ := [] }
  { st2 with logFileOpen := false }

/-- Console rendering of a successful `format` call, for stating
scenarios (`""` on the dead error arm). -/
def renderConsole (now : String) (level : LogLevel) (whereLoc : SourceLocation)
    (fmt : String) (args : List String) : String :=
  match format now level whereLoc fmt false args with
  | .ok s => s
  | .error _ => ""

end Logger

namespace Logger

/-- File-form rendering of a successful `format` call, for stating
scenarios (`""` on the dead error arm). -/
def renderFile (now : String) (level : LogLevel) (whereLoc : SourceLocation)
    (fmt : String) (args : List String) : String :=
  match format now level whereLoc fmt true args with
  | .ok s => s
  | .error _ => ""

end Logger

/-- A concrete call site used by the scenario theorems. -/
def locA : SourceLocation :=
  { fileName := "/home/user/src/game/main.cpp", line := 42, functionName := "main" }

/-- Rendered console forms of the three scenario messages. -/
def rA : String := Logger.renderConsole "" .Info locA "A" []

def rB : String := Logger.renderConsole "" .Info locA "B" []

def rC : String := Logger.renderConsole "" .Info locA "C" []

/-- Console form exactly as the claim words it: no square brackets around
the level tag.  Built from the words of the spec for comparison with the
source-derived `Logger.format`. -/
def specConsoleForm (level : LogLevel) (whereLoc : SourceLocation) (payload : String) : String :=
  Logger.LevelColour level ++ Logger.toString level ++ " " ++ shortFile whereLoc.fileName ++
    ":" ++ Nat.repr whereLoc.line ++ " in function " ++ COLOR_RESET ++ "\x27" ++
    whereLoc.functionName ++ "\x27" ++ Logger.LevelColour level ++ ": " ++ payload ++
    COLOR_RESET ++ "\n"

/-- Records that reach the worker while the three concrete scenario
messages "A", "B", "C" are pending: the state after the three `Log`
calls of the C7 scenario. -/
def stABC : LoggerState :=
  { initState with logQ :=
      [ { level := .Info, whereLoc := locA, message := rA, toFile := false },
        { level := .Info, whereLoc := locA, message := rB, toFile := false },
        { level := .Info, whereLoc := locA, message := rC, toFile := false } ] }

/-- The scenario record and state used to witness the shutdown drain: one
console record pending in the queue. -/
def mOne : LogMessage := { level := .Info, whereLoc := locA, message := rA, toFile := false }

def stOne : LoggerState := Logger.pushToQ mOne initState

/-- The states the `Logger` singleton can reach from its freshly
constructed state through the public operations, with the worker draining
the queue at arbitrary points.  Terminated runs have no further states. -/
inductive Reachable : LoggerState → Prop where
  | init : Reachable initState
  | setLevel (lvl : LogLevel) {st : LoggerState} :
      Reachable st → Reachable (Logger.SetLevel lvl st)
  | setPath (p : String) {st : LoggerState} :
      Reachable st → Reachable (Logger.SetLogfilePath p st)
  | enable (oks en : Bool) {st : LoggerState} :
      Reachable st → Reachable (Logger.EnableFileLogging oks en st)
  | log {now : String} {level : LogLevel} {whereLoc : SourceLocation}
      {fmt : String} {args : List String} {st st' : LoggerState} :
      Reachable st → Logger.Log now level whereLoc fmt args st = .normal st' →
      Reachable st'
  | logToFile {now : String} {level : LogLevel} {whereLoc : SourceLocation}
      {fmt : String} {args : List String} {st st' : LoggerState} :
      Reachable st → Logger.LogToFile now level whereLoc fmt args st = .normal st' →
      Reachable st'
  | worker {st : LoggerState} : Reachable st → Reachable (Logger.workerDrain st)

/-- The short-file rule as the amended claim words it: the suffix of the
path starting at the FIRST occurrence of the `src/` marker, the marker
itself included, when one exists; otherwise the text after the final path
separator; otherwise the full path.  Stated by index search and
reverse/takeWhile, independently of the strstr/strrchr pointer walk of
the embedding. -/
def shortFileAmended (full : String) : String :=
  match (List.range (full.toList.length + 1)).find?
      (fun i => srcMarker.isPrefixOf (full.toList.drop i)) with
  | some i => String.mk (full.toList.drop i)
  | none => String.mk ((full.toList.reverse.takeWhile (fun a => a != slashChar)).reverse)

/-- Claim C1.  The claim says a `Log` or `LogToFile` call never crashes
the host process and a formatting failure degrades to a best-effort
diagnostic.  The code is `noexcept` all the way down yet calls
`std::vformat`, which throws `std::format_error` on a template/argument
mismatch; the exception hits the `noexcept` boundary and `std::terminate`
aborts the process.  This theorem evaluates both entry points at the
failing input: template `\x7b\x7d` with an empty argument list. -/
theorem C1_format_mismatch_terminates :
    Logger.Log "" .Info locA "\x7b\x7d" [] initState = .terminated ∧
    Logger.LogToFile "" .Info locA "\x7b\x7d" []
      { initState with logToFile := true, logFileOpen := true } = .terminated :=
  ⟨rfl, rfl⟩

/-- Claim C2.  While file logging is enabled, a `LogToFile` call at ANY
level, under ANY `minimumLevel` (the `level` field of the state is left
completely unconstrained), renders the file form and enqueues exactly one
record with `toFile = true`: the `minimumLevel` filter is never applied
on the file-targeted path. -/
theorem C2_fileLog_bypasses_level_filter
    (now : String) (level : LogLevel) (whereLoc : SourceLocation)
    (fmt : String) (args : List String) (st : LoggerState) (out : String)
    (henabled : st.logToFile = true)
    (hfmt : Logger.format now level whereLoc fmt true args = .ok out) :
    Logger.LogToFile now level whereLoc fmt args st =
      .normal (Logger.pushToQ
        { level := level, whereLoc := whereLoc, message := out, toFile := true } st) := by
  unfold Logger.LogToFile
  rw [henabled, hfmt]
  simp

theorem C2_fileLog_bypasses_level_filter_witness :
    ({ initState with logToFile := true, level := .Off } : LoggerState).logToFile = true ∧
    Logger.LogToFile "T" .Trace locA "m" [] { initState with logToFile := true, level := .Off } =
      .normal (Logger.pushToQ
        { level := .Trace, whereLoc := locA, message := Logger.renderFile "T" .Trace locA "m" [],
          toFile := true } { initState with logToFile := true, level := .Off }) :=
  ⟨rfl, C2_fileLog_bypasses_level_filter "T" .Trace locA "m" []
    { initState with logToFile := true, level := .Off }
    (Logger.renderFile "T" .Trace locA "m" []) rfl rfl⟩

/-- Claim C3.  After `SetLevel L2`, a console `Log` at any `L1 < L2`
returns the state unchanged for EVERY template and argument list (so the
message is not even passed to the formatter: the equation holds also for
templates on which formatting would fail), while a console `Log` at any
level `L ≥ L2` whose rendering succeeds enqueues exactly one record. -/
theorem C3_console_level_filter (L1 L2 : LogLevel) (h : levelLt L1 L2 = true)
    (st : LoggerState) (now : String) (whereLoc : SourceLocation) :
    (∀ fmt args,
      Logger.Log now L1 whereLoc fmt args (Logger.SetLevel L2 st) =
        .normal (Logger.SetLevel L2 st)) ∧
    (∀ L fmt args out, levelLt L L2 = false →
      Logger.format now L whereLoc fmt false args = .ok out →
      Logger.Log now L whereLoc fmt args (Logger.SetLevel L2 st) =
        .normal (Logger.pushToQ
          { level := L, whereLoc := whereLoc, message := out, toFile := false }
          (Logger.SetLevel L2 st))) := by
  constructor
  · intro fmt args
    unfold Logger.Log Logger.SetLevel
    simp [h]
  · intro L fmt args out hge hfmt
    unfold Logger.Log Logger.SetLevel
    simp only [hge, Bool.false_eq_true, if_false, hfmt]

theorem C3_console_level_filter_witness :
    levelLt .Debug .Warn = true ∧
    Logger.Log "" .Debug locA "m" [] (Logger.SetLevel .Warn initState) =
      .normal (Logger.SetLevel .Warn initState) ∧
    Logger.Log "" .Error locA "m" [] (Logger.SetLevel .Warn initState) =
      .normal (Logger.pushToQ
        { level := .Error, whereLoc := locA,
          message := Logger.renderConsole "" .Error locA "m" [], toFile := false }
        (Logger.SetLevel .Warn initState)) :=
  ⟨rfl,
   (C3_console_level_filter .Debug .Warn rfl initState "" locA).1 "m" [],
   (C3_console_level_filter .Debug .Warn rfl initState "" locA).2 .Error "m" []
     (Logger.renderConsole "" .Error locA "m" []) rfl rfl⟩

/-- Claim C4, counterexample.  The claim says EVERY `LogToFile` call made
while file logging was never enabled emits exactly one Warn console
record.  But the misuse report is issued through `Log`, which applies the
`minimumLevel` filter: with `minimumLevel = Error` the Warn record is
dropped and the call has no effect at all — zero records. -/
theorem C4_counterexample :
    Logger.LogToFile "" .Fatal locA "payload" [] { initState with level := .Error } =
      .normal { initState with level := .Error } ∧
    ({ initState with level := .Error } : LoggerState).logToFile = false ∧
    ({ initState with level := .Error } : LoggerState).logQ = [] :=
  ⟨rfl, rfl, rfl⟩

/-- Claim C4 as amended: a `LogToFile` call made while file logging is
not enabled emits one Warn console record IF `Warn ≥ minimumLevel`, and
nothing at all otherwise; in both cases the original message is dropped
(the resulting queue extension is a fixed misuse record, independent of
the requested level, template and arguments). -/
theorem C4_misuse_warn_record (now : String) (level : LogLevel)
    (whereLoc : SourceLocation) (fmt : String) (args : List String) (st : LoggerState)
    (hdis : st.logToFile = false) :
    Logger.LogToFile now level whereLoc fmt args st =
      .normal (if levelLt .Warn st.level
               then st
               else Logger.pushToQ
                 { level := .Warn, whereLoc := Logger.misuseLoc,
                   message := Logger.renderConsole now .Warn Logger.misuseLoc Logger.misuseText [],
                   toFile := false } st) := by
  unfold Logger.LogToFile
  rw [hdis]
  simp only [if_pos]
  unfold Logger.Log
  cases hW : levelLt .Warn st.level with
  | true => simp [hW]
  | false =>
    simp only [hW, Bool.false_eq_true, if_false]
    have hfmt : Logger.format now .Warn Logger.misuseLoc Logger.misuseText false [] =
        .ok (Logger.renderConsole now .Warn Logger.misuseLoc Logger.misuseText []) := rfl
    rw [hfmt]

theorem C4_misuse_warn_record_witness :
    (initState.logToFile = false) ∧
    Logger.LogToFile "" .Info locA "payload" [] initState =
      .normal (Logger.pushToQ
        { level := .Warn, whereLoc := Logger.misuseLoc,
          message := Logger.renderConsole "" .Warn Logger.misuseLoc Logger.misuseText [],
          toFile := false } initState) := by
  refine ⟨rfl, ?_⟩
  have h := C4_misuse_warn_record "" .Info locA "payload" [] initState rfl
  simpa using h

/-- Claim C5, counterexample.  The claim says an `enableFileLogging(true)`
open failure emits a WARN-level console record.  The source calls
`Log(LogLevel::Error, ...)`: at the default state the single record
produced carries level Error, not Warn. -/
theorem C5_counterexample :
    (Logger.EnableFileLogging false true initState).logQ.map (fun m => m.level) =
      [LogLevel.Error] ∧
    LogLevel.Error ≠ LogLevel.Warn ∧
    (Logger.EnableFileLogging false true initState).logToFile = false :=
  ⟨rfl, by decide, rfl⟩

/-- Claim C5 as amended: when `enableFileLogging(true)` fails to open the
configured path, it reports the failure as an ERROR-level console record
(which, being issued through `Log`, is itself subject to the
`minimumLevel` filter), leaves file logging disabled with the handle
closed, and raises no error to the caller (`EnableFileLogging` is a
total state transformer; no exception channel exists). -/
theorem C5_open_failure_error_record (st : LoggerState) (hclosed : st.logFileOpen = false) :
    Logger.EnableFileLogging false true st =
      { (if levelLt .Error st.level
         then st
         else Logger.pushToQ
           { level := .Error, whereLoc := Logger.enableLoc,
             message := Logger.renderConsole "" .Error Logger.enableLoc Logger.openFailText [],
             toFile := false } st) with logToFile := false } ∧
    (Logger.EnableFileLogging false true st).logToFile = false ∧
    (Logger.EnableFileLogging false true st).logFileOpen = false := by
  have hmain : Logger.EnableFileLogging false true st =
      { (if levelLt .Error st.level
         then st
         else Logger.pushToQ
           { level := .Error, whereLoc := Logger.enableLoc,
             message := Logger.renderConsole "" .Error Logger.enableLoc Logger.openFailText [],
             toFile := false } st) with logToFile := false } := by
    unfold Logger.EnableFileLogging
    rw [hclosed]
    simp only [Bool.false_or, if_pos]
    unfold Logger.Log
    cases hE : levelLt .Error st.level with
    | true => simp [hE]
    | false =>
      simp only [hE, Bool.false_eq_true, if_false]
      have hfmt : Logger.format "" .Error Logger.enableLoc Logger.openFailText false [] =
          .ok (Logger.renderConsole "" .Error Logger.enableLoc Logger.openFailText []) := rfl
      rw [hfmt]
  refine ⟨hmain, ?_, ?_⟩
  · rw [hmain]
  · rw [hmain]
    cases hE : levelLt .Error st.level with
    | true => simp [hE, hclosed]
    | false => simp [hE, Logger.pushToQ, hclosed]

theorem C5_open_failure_error_record_witness :
    initState.logFileOpen = false ∧
    Logger.EnableFileLogging false true initState =
      { (Logger.pushToQ
          { level := .Error, whereLoc := Logger.enableLoc,
            message := Logger.renderConsole "" .Error Logger.enableLoc Logger.openFailText [],
            toFile := false } initState) with logToFile := false } ∧
    (Logger.EnableFileLogging false true initState).logToFile = false := by
  refine ⟨rfl, ?_, (C5_open_failure_error_record initState rfl).2.1⟩
  have h := (C5_open_failure_error_record initState rfl).1
  simpa using h


/-- Claim C9, counterexample.  The source renders the level tag inside
square brackets (`"{}[{}] {}..."`), so at a concrete input the rendered
console string differs from the claim template, which has no brackets
around `<LEVEL>`. -/
theorem C9_counterexample :
    Logger.format "" .Info locA "hi" false [] =
      .ok (Logger.renderConsole "" .Info locA "hi" []) ∧
    Logger.renderConsole "" .Info locA "hi" [] ≠ specConsoleForm .Info locA "hi" :=
  ⟨rfl, by decide⟩

/-- Claim C9 as amended: the console rendering is
`<color>[<LEVEL>] <shortFile>:<line> in function <reset>'<function>'<color>: <message><reset>\n`
— identical to the claim template except that the level tag is enclosed
in square brackets — and the colour is selected by level exactly as the
claim lists it (Trace grey, Debug blue, Info green, Warn yellow, Error
red, Fatal white on red background). -/
theorem C9_console_render (now : String) (level : LogLevel)
    (whereLoc : SourceLocation) (fmt : String) (args : List String) (payload : String)
    (hfmt : vformat fmt args = .ok payload) :
    Logger.format now level whereLoc fmt false args =
      .ok (Logger.LevelColour level ++ "[" ++ Logger.toString level ++ "] " ++
        shortFile whereLoc.fileName ++ ":" ++ Nat.repr whereLoc.line ++
        " in function " ++ COLOR_RESET ++ "\x27" ++ whereLoc.functionName ++ "\x27" ++
        Logger.LevelColour level ++ ": " ++ payload ++ COLOR_RESET ++ "\n") ∧
    Logger.LevelColour .Trace = COLOR_GREY ∧
    Logger.LevelColour .Debug = COLOR_BLUE ∧
    Logger.LevelColour .Info = COLOR_GREEN ∧
    Logger.LevelColour .Warn = COLOR_YELLOW ∧
    Logger.LevelColour .Error = COLOR_RED ∧
    Logger.LevelColour .Fatal = COLOR_FATAL := by
  refine ⟨?_, rfl, rfl, rfl, rfl, rfl, rfl⟩
  unfold Logger.format
  rw [hfmt]
  rfl

theorem C9_console_render_witness :
    vformat "hi" [] = .ok "hi" ∧
    Logger.format "" .Info locA "hi" false [] =
      .ok (Logger.LevelColour .Info ++ "[" ++ Logger.toString .Info ++ "] " ++
        shortFile locA.fileName ++ ":" ++ Nat.repr locA.line ++
        " in function " ++ COLOR_RESET ++ "\x27" ++ locA.functionName ++ "\x27" ++
        Logger.LevelColour .Info ++ ": " ++ "hi" ++ COLOR_RESET ++ "\n") :=
  ⟨rfl, (C9_console_render "" .Info locA "hi" [] "hi" rfl).1⟩

theorem workerStep_logToFile (m : LogMessage) (st : LoggerState) :
    (Logger.workerStep m st).logToFile = st.logToFile := by
  unfold Logger.workerStep
  split <;> rfl

theorem workerStep_logFileOpen (m : LogMessage) (st : LoggerState) :
    (Logger.workerStep m st).logFileOpen = st.logFileOpen := by
  unfold Logger.workerStep
  split <;> rfl

theorem workerStep_consoleOut (m : LogMessage) (st : LoggerState) :
    (Logger.workerStep m st).consoleOut = st.consoleOut ++ [m.message] := by
  unfold Logger.workerStep
  split <;> rfl

theorem workerStep_fileContents (m : LogMessage) (st : LoggerState) :
    (Logger.workerStep m st).fileContents =
      if m.toFile && st.logToFile && st.logFileOpen
      then st.fileContents ++ [m.message]
      else st.fileContents := by
  unfold Logger.workerStep
  split <;> rename_i h <;> simp [h]

theorem workerRun_consoleOut (q : List LogMessage) (st : LoggerState) :
    (Logger.workerRun q st).consoleOut = st.consoleOut ++ q.map (fun m => m.message) := by
  induction q generalizing st with
  | nil => simp [Logger.workerRun]
  | cons m rest ih =>
    simp only [Logger.workerRun]
    rw [ih, workerStep_consoleOut]
    simp

theorem workerRun_logToFile (q : List LogMessage) (st : LoggerState) :
    (Logger.workerRun q st).logToFile = st.logToFile := by
  induction q generalizing st with
  | nil => rfl
  | cons m rest ih =>
    simp only [Logger.workerRun]
    rw [ih, workerStep_logToFile]

theorem workerRun_logFileOpen (q : List LogMessage) (st : LoggerState) :
    (Logger.workerRun q st).logFileOpen = st.logFileOpen := by
  induction q generalizing st with
  | nil => rfl
  | cons m rest ih =>
    simp only [Logger.workerRun]
    rw [ih, workerStep_logFileOpen]

theorem workerRun_fileContents (q : List LogMessage) (st : LoggerState) :
    (Logger.workerRun q st).fileContents =
      st.fileContents ++
        (q.filter (fun m => m.toFile && st.logToFile && st.logFileOpen)).map
          (fun m => m.message) := by
  induction q generalizing st with
  | nil => simp [Logger.workerRun]
  | cons m rest ih =>
    simp only [Logger.workerRun]
    rw [ih, workerStep_logToFile, workerStep_logFileOpen, workerStep_fileContents]
    cases hc : (m.toFile && st.logToFile && st.logFileOpen) with
    | true => simp [List.filter_cons, hc]
    | false => simp [List.filter_cons, hc]


/-- Claim C7.  The queue is a single FIFO shared by both destinations and
the worker is its only consumer: one wake-up of the worker writes the
pending records in exactly the order they were enqueued (the console
receives every record in queue order; the file receives the file-flagged
ones as the order-preserving filtered subsequence).  In particular,
logging "A", "B", "C" in that order from a single thread then draining
yields the three renderings written in exactly that order. -/
theorem C7_fifo_order :
    (∀ st : LoggerState,
      (Logger.workerDrain st).consoleOut = st.consoleOut ++ st.logQ.map (fun m => m.message) ∧
      (Logger.workerDrain st).fileContents =
        st.fileContents ++
          ((st.logQ.filter (fun m => m.toFile && st.logToFile && st.logFileOpen)).map
            (fun m => m.message))) ∧
    ((Logger.Log "" .Info locA "A" [] initState).andThen (fun st =>
        Logger.Log "" .Info locA "B" [] st)).andThen (fun st =>
        Logger.Log "" .Info locA "C" [] st) = .normal stABC ∧
    (Logger.workerDrain stABC).consoleOut = [rA, rB, rC] := by
  refine ⟨fun st => ⟨?_, ?_⟩, rfl, rfl⟩
  · unfold Logger.workerDrain
    rw [workerRun_consoleOut]
  · unfold Logger.workerDrain
    rw [workerRun_fileContents]

/-- Claim C10.  Every record the worker dequeues is printed to the
console (first conjunct, for every state).  Moreover a file-targeted
record enqueued while file logging is enabled is written BOTH to the file
and to the console, and the string written to both places is the very
file-form rendering produced by `format` with `logToFile = true`
(timestamped, no colour codes). -/
theorem C10_worker_echoes_file_records
    (st : LoggerState) (now : String) (level : LogLevel) (whereLoc : SourceLocation)
    (fmt : String) (args : List String) (out : String)
    (hen : st.logToFile = true) (hopen : st.logFileOpen = true)
    (hfmt : Logger.format now level whereLoc fmt true args = .ok out) :
    (∀ st2 : LoggerState,
      (Logger.workerDrain st2).consoleOut = st2.consoleOut ++ st2.logQ.map (fun m => m.message)) ∧
    Logger.LogToFile now level whereLoc fmt args st =
      .normal (Logger.pushToQ
        { level := level, whereLoc := whereLoc, message := out, toFile := true } st) ∧
    (Logger.workerDrain (Logger.pushToQ
        { level := level, whereLoc := whereLoc, message := out, toFile := true } st)).fileContents =
      st.fileContents ++
        ((st.logQ.filter (fun m => m.toFile && st.logToFile && st.logFileOpen)).map
          (fun m => m.message)) ++ [out] ∧
    (Logger.workerDrain (Logger.pushToQ
        { level := level, whereLoc := whereLoc, message := out, toFile := true } st)).consoleOut =
      st.consoleOut ++ st.logQ.map (fun m => m.message) ++ [out] := by
  refine ⟨?_, ?_, ?_, ?_⟩
  · intro st2
    unfold Logger.workerDrain
    rw [workerRun_consoleOut]
  · unfold Logger.LogToFile
    rw [hen, hfmt]
    simp
  · unfold Logger.workerDrain Logger.pushToQ
    rw [workerRun_fileContents]
    simp [List.filter_append, List.filter_cons, hen, hopen]
  · unfold Logger.workerDrain Logger.pushToQ
    rw [workerRun_consoleOut]
    simp

theorem C10_worker_echoes_file_records_witness :
    (({ initState with logToFile := true, logFileOpen := true } : LoggerState).logToFile = true) ∧
    Logger.LogToFile "T" .Info locA "hello" []
        { initState with logToFile := true, logFileOpen := true } =
      .normal (Logger.pushToQ
        { level := .Info, whereLoc := locA,
          message := Logger.renderFile "T" .Info locA "hello" [], toFile := true }
        { initState with logToFile := true, logFileOpen := true }) ∧
    (Logger.workerDrain (Logger.pushToQ
        { level := .Info, whereLoc := locA,
          message := Logger.renderFile "T" .Info locA "hello" [], toFile := true }
        { initState with logToFile := true, logFileOpen := true })).fileContents =
      [Logger.renderFile "T" .Info locA "hello" []] ∧
    (Logger.workerDrain (Logger.pushToQ
        { level := .Info, whereLoc := locA,
          message := Logger.renderFile "T" .Info locA "hello" [], toFile := true }
        { initState with logToFile := true, logFileOpen := true })).consoleOut =
      [Logger.renderFile "T" .Info locA "hello" []] := by
  have h := C10_worker_echoes_file_records
    { initState with logToFile := true, logFileOpen := true } "T" .Info locA "hello" []
    (Logger.renderFile "T" .Info locA "hello" []) rfl rfl rfl
  refine ⟨rfl, h.2.1, ?_, ?_⟩
  · have := h.2.2.1
    simpa using this
  · have := h.2.2.2
    simpa using this

theorem drainStep_logToFile (m : LogMessage) (st : LoggerState) :
    (Logger.drainStep m st).logToFile = st.logToFile := by
  unfold Logger.drainStep
  split <;> rfl

theorem drainStep_logFileOpen (m : LogMessage) (st : LoggerState) :
    (Logger.drainStep m st).logFileOpen = st.logFileOpen := by
  unfold Logger.drainStep
  split <;> rfl

theorem drainStep_logQ (m : LogMessage) (st : LoggerState) :
    (Logger.drainStep m st).logQ = st.logQ := by
  unfold Logger.drainStep
  split <;> rfl

theorem drainStep_running (m : LogMessage) (st : LoggerState) :
    (Logger.drainStep m st).running = st.running := by
  unfold Logger.drainStep
  split <;> rfl

theorem drainStep_fileContents (m : LogMessage) (st : LoggerState) :
    (Logger.drainStep m st).fileContents =
      if m.toFile && st.logToFile && st.logFileOpen
      then st.fileContents ++ [m.message]
      else st.fileContents := by
  unfold Logger.drainStep
  split <;> rename_i h <;> simp [h]

theorem drainStep_consoleOut (m : LogMessage) (st : LoggerState) :
    (Logger.drainStep m st).consoleOut =
      if m.toFile && st.logToFile && st.logFileOpen
      then st.consoleOut
      else st.consoleOut ++ [m.message] := by
  unfold Logger.drainStep
  split <;> rename_i h <;> simp [h]

theorem drainAll_logToFile (q : List LogMessage) (st : LoggerState) :
    (Logger.drainAll q st).logToFile = st.logToFile := by
  induction q generalizing st with
  | nil => rfl
  | cons m rest ih =>
    simp only [Logger.drainAll]
    rw [ih, drainStep_logToFile]

theorem drainAll_logFileOpen (q : List LogMessage) (st : LoggerState) :
    (Logger.drainAll q st).logFileOpen = st.logFileOpen := by
  induction q generalizing st with
  | nil => rfl
  | cons m rest ih =>
    simp only [Logger.drainAll]
    rw [ih, drainStep_logFileOpen]

theorem drainAll_logQ (q : List LogMessage) (st : LoggerState) :
    (Logger.drainAll q st).logQ = st.logQ := by
  induction q generalizing st with
  | nil => rfl
  | cons m rest ih =>
    simp only [Logger.drainAll]
    rw [ih, drainStep_logQ]

theorem drainAll_running (q : List LogMessage) (st : LoggerState) :
    (Logger.drainAll q st).running = st.running := by
  induction q generalizing st with
  | nil => rfl
  | cons m rest ih =>
    simp only [Logger.drainAll]
    rw [ih, drainStep_running]

theorem drainAll_fileContents (q : List LogMessage) (st : LoggerState) :
    (Logger.drainAll q st).fileContents =
      st.fileContents ++
        ((q.filter (fun m => m.toFile && st.logToFile && st.logFileOpen)).map
          (fun m => m.message)) := by
  induction q generalizing st with
  | nil => simp [Logger.drainAll]
  | cons m rest ih =>
    simp only [Logger.drainAll]
    rw [ih, drainStep_logToFile, drainStep_logFileOpen, drainStep_fileContents]
    cases hc : (m.toFile && st.logToFile && st.logFileOpen) with
    | true => simp [List.filter_cons, hc]
    | false => simp [List.filter_cons, hc]

theorem drainAll_consoleOut (q : List LogMessage) (st : LoggerState) :
    (Logger.drainAll q st).consoleOut =
      st.consoleOut ++
        ((q.filter (fun m => !(m.toFile && st.logToFile && st.logFileOpen))).map
          (fun m => m.message)) := by
  induction q generalizing st with
  | nil => simp [Logger.drainAll]
  | cons m rest ih =>
    simp only [Logger.drainAll]
    rw [ih, drainStep_logToFile, drainStep_logFileOpen, drainStep_consoleOut]
    rcases Bool.eq_false_or_eq_true (m.toFile && st.logToFile && st.logFileOpen) with hc | hc <;>
      simp only [List.filter_cons, hc, Bool.not_false, Bool.not_true, if_true, if_false,
        Bool.false_eq_true, Bool.true_eq_false, List.map_cons, List.append_assoc,
        List.singleton_append, ite_true, ite_false]

theorem filter_partition_length {α : Type} (p : α → Bool) (l : List α) :
    (l.filter p).length + (l.filter (fun a => !(p a))).length = l.length := by
  induction l with
  | nil => rfl
  | cons a t ih => cases h : p a <;> simp [List.filter_cons, h] <;> omega

/-- A `Log` call that returns normally leaves the file-sink flags
untouched (it only possibly pushes a record). -/
theorem Log_normal_flags {now : String} {level : LogLevel} {whereLoc : SourceLocation}
    {fmt : String} {args : List String} {st st' : LoggerState}
    (h : Logger.Log now level whereLoc fmt args st = .normal st') :
    st'.logToFile = st.logToFile ∧ st'.logFileOpen = st.logFileOpen := by
  unfold Logger.Log at h
  split at h
  · cases h
    exact ⟨rfl, rfl⟩
  · cases hf : Logger.format now level whereLoc fmt false args with
    | error e => rw [hf] at h; cases h
    | ok out =>
      rw [hf] at h
      cases h
      exact ⟨rfl, rfl⟩

/-- Same for `LogToFile`. -/
theorem LogToFile_normal_flags {now : String} {level : LogLevel} {whereLoc : SourceLocation}
    {fmt : String} {args : List String} {st st' : LoggerState}
    (h : Logger.LogToFile now level whereLoc fmt args st = .normal st') :
    st'.logToFile = st.logToFile ∧ st'.logFileOpen = st.logFileOpen := by
  unfold Logger.LogToFile at h
  split at h
  · exact Log_normal_flags h
  · cases hf : Logger.format now level whereLoc fmt true args with
    | error e => rw [hf] at h; cases h
    | ok out =>
      rw [hf] at h
      cases h
      exact ⟨rfl, rfl⟩

/-- After any `EnableFileLogging` call, an open file handle implies the
file-logging flag is set. -/
theorem EnableFileLogging_inv (oks en : Bool) (st : LoggerState) :
    (Logger.EnableFileLogging oks en st).logFileOpen = true →
    (Logger.EnableFileLogging oks en st).logToFile = true := by
  unfold Logger.EnableFileLogging
  cases en with
  | false => simp
  | true =>
    cases hopen : st.logFileOpen with
    | true => simp
    | false =>
      cases oks with
      | true => simp
      | false =>
        simp only [Bool.or_false, if_pos, Bool.false_eq_true]
        cases hL : Logger.Log "" .Error Logger.enableLoc Logger.openFailText [] st with
        | normal s =>
          intro hcontr
          have hs := (Log_normal_flags hL).2
          simp only [hL] at hcontr
          rw [hs, hopen] at hcontr
          cases hcontr
        | terminated =>
          intro hcontr
          simp only [hL] at hcontr
          rw [hopen] at hcontr
          cases hcontr


/-- State invariant: in every reachable state, an open log file implies
file logging is enabled (so the destructor condition
`toFile && _logToFile && _logFile.is_open()` collapses to
`toFile && _logFile.is_open()`). -/
theorem reachable_open_imp_enabled {st : LoggerState} (h : Reachable st) :
    st.logFileOpen = true → st.logToFile = true := by
  induction h with
  | init => intro hc; cases hc
  | setLevel lvl h ih => simpa [Logger.SetLevel] using ih
  | setPath p h ih => simpa [Logger.SetLogfilePath] using ih
  | enable oks en h ih => exact EnableFileLogging_inv oks en _
  | log h heq ih =>
    have hf := Log_normal_flags heq
    rw [hf.1, hf.2]
    exact ih
  | logToFile h heq ih =>
    have hf := LogToFile_normal_flags heq
    rw [hf.1, hf.2]
    exact ih
  | worker h ih =>
    unfold Logger.workerDrain
    rw [workerRun_logToFile, workerRun_logFileOpen]
    exact ih

/-- Claim C8.  At teardown, for every reachable state (any queue content,
any flag configuration the public operations can produce), the destructor
clears `running`, synchronously writes EVERY residual queued record —
to the file when the record is file-flagged and the handle is open, else
to the console — leaves the queue empty, and closes the file handle; the
two destination counts add up to the whole queue, so no record is
dropped. -/
theorem C8_shutdown_drains_fully (st : LoggerState) (h : Reachable st) :
    (Logger.destructor st).running = false ∧
    (Logger.destructor st).logQ = [] ∧
    (Logger.destructor st).logFileOpen = false ∧
    (Logger.destructor st).fileContents =
      st.fileContents ++
        ((st.logQ.filter (fun m => m.toFile && st.logFileOpen)).map (fun m => m.message)) ∧
    (Logger.destructor st).consoleOut =
      st.consoleOut ++
        ((st.logQ.filter (fun m => !(m.toFile && st.logFileOpen))).map (fun m => m.message)) ∧
    ((st.logQ.filter (fun m => m.toFile && st.logFileOpen)).length +
      (st.logQ.filter (fun m => !(m.toFile && st.logFileOpen))).length = st.logQ.length) := by
  have hpred : (fun m : LogMessage => m.toFile && st.logToFile && st.logFileOpen) =
      (fun m : LogMessage => m.toFile && st.logFileOpen) := by
    funext m
    cases hopen : st.logFileOpen with
    | true => rw [reachable_open_imp_enabled h hopen]; simp
    | false => simp
  have hpredNot : (fun m : LogMessage => !(m.toFile && st.logToFile && st.logFileOpen)) =
      (fun m : LogMessage => !(m.toFile && st.logFileOpen)) := by
    funext m
    exact congrArg (fun b => !b) (congrFun hpred m)
  refine ⟨?_, ?_, ?_, ?_, ?_, filter_partition_length _ _⟩
  · simp only [Logger.destructor]
    rw [drainAll_running]
  · simp only [Logger.destructor]
    rw [drainAll_logQ]
  · simp only [Logger.destructor]
  · simp only [Logger.destructor]
    rw [drainAll_fileContents]
    rw [show ({ st with running := false, logQ := [] } : LoggerState).logToFile =
      st.logToFile from rfl]
    rw [show ({ st with running := false, logQ := [] } : LoggerState).logFileOpen =
      st.logFileOpen from rfl]
    rw [hpred]
  · simp only [Logger.destructor]
    rw [drainAll_consoleOut]
    rw [show ({ st with running := false, logQ := [] } : LoggerState).logToFile =
      st.logToFile from rfl]
    rw [show ({ st with running := false, logQ := [] } : LoggerState).logFileOpen =
      st.logFileOpen from rfl]
    rw [hpredNot]



theorem C8_shutdown_drains_fully_witness :
    Reachable stOne ∧
    (Logger.destructor stOne).running = false ∧
    (Logger.destructor stOne).logQ = [] ∧
    (Logger.destructor stOne).logFileOpen = false ∧
    (Logger.destructor stOne).consoleOut = [rA] := by
  have hr : Reachable stOne :=
    @Reachable.log "" .Info locA "A" [] initState stOne Reachable.init (by rfl)
  refine ⟨hr, (C8_shutdown_drains_fully stOne hr).1,
    (C8_shutdown_drains_fully stOne hr).2.1,
    (C8_shutdown_drains_fully stOne hr).2.2.1, ?_⟩
  have h5 := (C8_shutdown_drains_fully stOne hr).2.2.2.2.1
  exact h5.trans (by decide)

/-- Claim C6, counterexample.  `Logger::format` computes the short file
with `std::strstr(full, "src/")`, which points AT the marker, not after
it: for a path containing `.../src/foo/bar.ext` the rendered origin shows
`src/foo/bar.ext`, not the `foo/bar.ext` the claim promises. -/
theorem C6_counterexample :
    shortFile "/home/user/src/foo/bar.ext" = "src/foo/bar.ext" ∧
    shortFile "/home/user/src/foo/bar.ext" ≠ "foo/bar.ext" := by
  refine ⟨rfl, ?_⟩
  decide


theorem find_range_succ_pos (p : Nat → Bool) (n : Nat) (h : p 0 = true) :
    (List.range (n + 1)).find? p = some 0 := by
  rw [List.range_succ_eq_map, List.find?_cons_of_pos _ h]

theorem find_range_succ_neg (p : Nat → Bool) (n : Nat) (h : p 0 = false) :
    (List.range (n + 1)).find? p =
      ((List.range n).find? (fun i => p (i + 1))).map (fun i => i + 1) := by
  rw [List.range_succ_eq_map, List.find?_cons_of_neg _ (by simp [h]), List.find?_map]
  rfl

theorem findSub_eq_find_range (pat : List Char) (s : List Char) :
    findSub pat s =
      ((List.range (s.length + 1)).find? (fun i => pat.isPrefixOf (s.drop i))).map
        (fun i => s.drop i) := by
  induction s with
  | nil =>
    cases h : pat.isPrefixOf ([] : List Char) with
    | true =>
      simp only [findSub, h, if_true]
      rw [find_range_succ_pos (fun i => pat.isPrefixOf (List.drop i ([] : List Char)))
        (([] : List Char).length) h]
      rfl
    | false =>
      simp only [findSub, h, Bool.false_eq_true, if_false]
      rw [find_range_succ_neg (fun i => pat.isPrefixOf (List.drop i ([] : List Char)))
        (([] : List Char).length) h]
      rfl
  | cons c rest ih =>
    cases h : pat.isPrefixOf (c :: rest) with
    | true =>
      simp only [findSub, h, if_true]
      rw [List.length_cons,
        find_range_succ_pos (fun i => pat.isPrefixOf (List.drop i (c :: rest)))
          (rest.length + 1) h]
      rfl
    | false =>
      simp only [findSub, h, Bool.false_eq_true, if_false]
      rw [ih, List.length_cons,
        find_range_succ_neg (fun i => pat.isPrefixOf (List.drop i (c :: rest)))
          (rest.length + 1) h]
      rw [Option.map_map]
      rfl

theorem strrchrSuffix_none_all (c : Char) (s : List Char)
    (h : strrchrSuffix c s = none) : ∀ a ∈ s, a ≠ c := by
  induction s with
  | nil => intro a ha; cases ha
  | cons b rest ih =>
    unfold strrchrSuffix at h
    split at h
    · cases h
    · rename_i heq
      split at h
      · cases h
      · rename_i hbc
        intro a ha
        rcases List.mem_cons.mp ha with h1 | h2
        · subst h1; exact hbc
        · exact ih heq a h2

theorem strrchrSuffix_some_mem (c : Char) (s t : List Char)
    (h : strrchrSuffix c s = some t) : c ∈ s := by
  induction s generalizing t with
  | nil => cases h
  | cons b rest ih =>
    unfold strrchrSuffix at h
    split at h
    · rename_i t2 heq
      exact List.mem_cons_of_mem b (ih t2 heq)
    · split at h
      · rename_i hbc
        subst hbc
        exact List.mem_cons_self b rest
      · cases h

theorem strrchrSuffix_spec (c : Char) (s : List Char) :
    (match strrchrSuffix c s with
     | some t => t
     | none => s) = (s.reverse.takeWhile (fun a => a != c)).reverse := by
  induction s with
  | nil => rfl
  | cons b rest ih =>
    rw [List.reverse_cons, List.takeWhile_append]
    cases hr : strrchrSuffix c rest with
    | some t =>
      have hmem : c ∈ rest := strrchrSuffix_some_mem c rest t hr
      have hne : List.takeWhile (fun a => a != c) rest.reverse ≠ rest.reverse := by
        intro hEq
        have hall := List.takeWhile_eq_self_iff.mp hEq
        have hc := hall c (by simpa using hmem)
        simp at hc
      have hcond :
          ¬((List.takeWhile (fun a => a != c) rest.reverse).length = rest.reverse.length) := by
        intro hlen
        exact hne ((List.takeWhile_prefix _).eq_of_length hlen)
      rw [if_neg hcond]
      have hL : (match strrchrSuffix c (b :: rest) with
                 | some t2 => t2
                 | none => b :: rest) = t := by
        unfold strrchrSuffix
        rw [hr]
      rw [hL]
      simp only [hr] at ih
      exact ih
    | none =>
      have hall : ∀ a ∈ rest, a ≠ c := strrchrSuffix_none_all c rest hr
      have htw : List.takeWhile (fun a => a != c) rest.reverse = rest.reverse := by
        apply List.takeWhile_eq_self_iff.mpr
        intro x hx
        have hxr : x ∈ rest := by simpa using hx
        simpa using hall x hxr
      have hcond :
          (List.takeWhile (fun a => a != c) rest.reverse).length = rest.reverse.length := by
        rw [htw]
      rw [if_pos hcond]
      have hL : (match strrchrSuffix c (b :: rest) with
                 | some t2 => t2
                 | none => b :: rest) = if b = c then rest else b :: rest := by
        unfold strrchrSuffix
        rw [hr]
        by_cases hbc : b = c
        · rw [if_pos hbc, if_pos hbc]
        · rw [if_neg hbc, if_neg hbc]
      rw [hL, List.takeWhile_cons]
      by_cases hbc : b = c
      · rw [if_pos hbc]
        rw [show ((b : Char) != c) = false by simp [hbc]]
        simp
      · rw [if_neg hbc]
        rw [show ((b : Char) != c) = true by simp [hbc]]
        simp

/-- Claim C6 as amended: the short file shown in the rendered origin is
the suffix of the call-site path starting at the FIRST occurrence of the
`src/` marker — the marker itself included, so `.../src/foo/bar.ext`
shows `src/foo/bar.ext` — when the path contains one; otherwise the text
after the final path separator; otherwise the full path. -/
theorem C6_shortFile_resolution (full : String) :
    shortFile full = shortFileAmended full := by
  unfold shortFile shortFileAmended
  rw [findSub_eq_find_range]
  cases hfind : (List.range (full.toList.length + 1)).find?
      (fun i => srcMarker.isPrefixOf (full.toList.drop i)) with
  | some i => rfl
  | none =>
    rw [show Option.map (fun i => full.toList.drop i) (none : Option Nat) = none from rfl]
    have hb := strrchrSuffix_spec slashChar full.toList
    cases hr : strrchrSuffix slashChar full.toList with
    | some t =>
      simp only [hr] at hb
      rw [hb]
    | none =>
      simp only [hr] at hb
      rw [← hb]
      rfl
